import Mathlib

/-!
Shallow embedding of the `transaction-handler` repository (`src/engine.rs`,
`src/error.rs`), a per-account ledger processor.

Modelling conventions:
* `rust_decimal::Decimal` is modelled as `ℚ`: within this development only
  exact addition, subtraction, comparison and equality of decimal values are
  used, and on those operations `Decimal` agrees with the rationals
  (96-bit mantissa overflow, which panics in `rust_decimal`, is outside the
  scope of every claim).
* `u16` / `u32` identifiers are modelled as `Nat` with the range enforced by
  the input parsers.
* `HashMap` is modelled as an association list.  `HashMap::insert` is only
  ever called by the source on a key that is known to be absent (the deposit
  and withdrawal branches check `contains_key` first; `Entry::Vacant` is
  absent by construction), so consing a fresh key models it exactly;
  in-place mutation through `get_mut` is modelled by `mset`.
* Rust panics (`Option::unwrap` on `None`, `Result::unwrap` on `Err`, a
  failed `assert_eq!`) are modelled by the explicit `Panic` sum: a function
  that can panic returns `Except Panic _`.
-/

namespace TransactionHandler

/-- Models the type alias `type ClientId = u16` (`engine.rs`). -/
abbrev ClientId := Nat

/-- Models the type alias `type TransactionId = u32` (`engine.rs`). -/
abbrev TransactionId := Nat

/-- Models `enum Action` from `engine.rs`. -/
inductive Action
  | deposit
  | withdrawal
  | dispute
  | resolve
  | chargeback
deriving DecidableEq

/-- Models `enum CustomError` from `error.rs`.  The payloads of the three
parse/IO variants are irrelevant to every claim and are dropped. -/
inductive CustomError
  | undefinedAction
  | decimalParseError
  | intParseError
  | fileOpenError
  | accountBalanceNotEnough
  | lockedAccount
  | duplicatedTransactionId
  | nonExistingTransactionId
  | undefinedBehaviour
  | notUnderDispute
deriving DecidableEq

/-- Models a Rust panic and how it arose: `Option::unwrap` on `None`,
`Result::unwrap` on `Err`, or a failed `assert_eq!`. -/
inductive Panic
  | unwrapNone
  | unwrapErr
  | assertFailed
deriving DecidableEq

/-- Models `struct Transaction` from `engine.rs`. -/
structure Transaction where
  action_type : Action
  client_id : ClientId
  transaction_id : TransactionId
  decimal : Option ℚ
  is_under_dispute : Bool
deriving DecidableEq

/-- Models `struct Account` from `engine.rs`. -/
structure Account where
  _client_id : ClientId
  transactions : List (TransactionId × Transaction)
  is_locked : Bool
  available : ℚ
  held : ℚ
  total : ℚ
deriving DecidableEq

/-- Association-list model of `HashMap::get` / `contains_key`. -/
def mlookup (k : Nat) : List (Nat × α) → Option α
  | [] => none
  | p :: m => if k = p.1 then some p.2 else mlookup k m

/-- Association-list model of in-place mutation of the entry at key `k`
(the source's `HashMap::get_mut` followed by writing through the reference):
every binding of `k` is replaced by `v`, all other bindings are kept. -/
def mset (k : Nat) (v : α) : List (Nat × α) → List (Nat × α)
  | [] => []
  | p :: m => if p.1 = k then (k, v) :: mset k v m else p :: mset k v m

/-- Models `Account::new` (`engine.rs`): `Decimal::new(0, PRECISION)` is the
decimal value `0`. -/
def Account.new (client_id : ClientId) : Account :=
  { _client_id := client_id
    transactions := []
    is_locked := false
    available := 0
    held := 0
    total := 0 }

/-- Models the `assert_eq!(self.total, self.available + self.held)` that every
successful branch of `handle_transaction` passes through before `Ok(())`; a
failed assertion is a panic, not an `Err`. -/
def sanityCheck (a : Account) : Except Panic (Account × Except CustomError Unit) :=
  if a.total = a.available + a.held then Except.ok (a, Except.ok ())
  else Except.error Panic.assertFailed

/-- Models `Account::handle_transaction` (`engine.rs`, lines 231-353).  The
returned pair carries the account as left by the call (the source mutates
`self` in place) together with the `Result<(), CustomError>` value; a `Panic`
result models an `unwrap` on a missing amount or a failed final assertion. -/
def Account.handle_transaction (a : Account) (t : Transaction) :
    Except Panic (Account × Except CustomError Unit) :=
  if a.is_locked then Except.ok (a, Except.error CustomError.lockedAccount)
  else
    match t.action_type with
    | Action.deposit =>
      if (mlookup t.transaction_id a.transactions).isSome then
        Except.ok (a, Except.error CustomError.duplicatedTransactionId)
      else
        match t.decimal with
        | none => Except.error Panic.unwrapNone
        | some d =>
          sanityCheck { a with
            available := a.available + d
            total := a.total + d
            transactions := (t.transaction_id, t) :: a.transactions }
    | Action.withdrawal =>
      if (mlookup t.transaction_id a.transactions).isSome then
        Except.ok (a, Except.error CustomError.duplicatedTransactionId)
      else
        match t.decimal with
        | none => Except.error Panic.unwrapNone
        | some d =>
          if a.available < d then
            Except.ok (a, Except.error CustomError.accountBalanceNotEnough)
          else
            sanityCheck { a with
              available := a.available - d
              total := a.total - d
              transactions := (t.transaction_id, t) :: a.transactions }
    | Action.dispute =>
      match mlookup t.transaction_id a.transactions with
      | none => Except.ok (a, Except.error CustomError.nonExistingTransactionId)
      | some orig =>
        match orig.action_type with
        | Action.deposit =>
          match orig.decimal with
          | none => Except.error Panic.unwrapNone
          | some d =>
            sanityCheck { a with
              available := a.available - d
              held := a.held + d
              transactions :=
                mset t.transaction_id { orig with is_under_dispute := true }
                  a.transactions }
        | _ => Except.ok (a, Except.error CustomError.undefinedBehaviour)
    | Action.resolve =>
      match mlookup t.transaction_id a.transactions with
      | none => Except.ok (a, Except.error CustomError.nonExistingTransactionId)
      | some orig =>
        match orig.action_type with
        | Action.deposit =>
          if orig.is_under_dispute then
            match orig.decimal with
            | none => Except.error Panic.unwrapNone
            | some d =>
              sanityCheck { a with
                available := a.available + d
                held := a.held - d
                transactions :=
                  mset t.transaction_id { orig with is_under_dispute := false }
                    a.transactions }
          else Except.ok (a, Except.error CustomError.notUnderDispute)
        | _ => Except.ok (a, Except.error CustomError.undefinedBehaviour)
    | Action.chargeback =>
      match mlookup t.transaction_id a.transactions with
      | none => Except.ok (a, Except.error CustomError.nonExistingTransactionId)
      | some orig =>
        match orig.action_type with
        | Action.deposit =>
          if orig.is_under_dispute then
            match orig.decimal with
            | none => Except.error Panic.unwrapNone
            | some d =>
              sanityCheck { a with
                held := a.held - d
                total := a.total - d
                is_locked := true
                transactions :=
                  mset t.transaction_id { orig with is_under_dispute := false }
                    a.transactions }
          else Except.ok (a, Except.error CustomError.notUnderDispute)
        | _ => Except.ok (a, Except.error CustomError.undefinedBehaviour)

/-- Models `impl FromStr for Action` (`engine.rs`, lines 129-142). -/
def Action.from_str (s : String) : Except CustomError Action :=
  if s = "deposit" then Except.ok Action.deposit
  else if s = "withdrawal" then Except.ok Action.withdrawal
  else if s = "dispute" then Except.ok Action.dispute
  else if s = "resolve" then Except.ok Action.resolve
  else if s = "chargeback" then Except.ok Action.chargeback
  else Except.error CustomError.undefinedAction

/-- Numeric value of a decimal digit character, `none` on a non-digit. -/
def digitVal (c : Char) : Option Nat :=
  if 48 ≤ c.toNat ∧ c.toNat ≤ 57 then some (c.toNat - 48) else none

/-- Accumulating helper for `parseDigits`. -/
def parseDigitsAux (acc : Nat) : List Char → Option Nat
  | [] => some acc
  | c :: cs =>
    match digitVal c with
    | none => none
    | some v => parseDigitsAux (acc * 10 + v) cs

/-- Parses a non-empty string of decimal digits into a `Nat`. -/
def parseDigits : List Char → Option Nat
  | [] => none
  | cs => parseDigitsAux 0 cs

/-- Models `u16::from_str` (the standard-library parser the source calls in
`Transaction::from_record`) on the inputs this program meets: a string of
digits denoting a number below `2^16`. -/
def parseU16 (s : String) : Except CustomError Nat :=
  match parseDigits s.data with
  | some n => if n < 65536 then Except.ok n else Except.error CustomError.intParseError
  | none => Except.error CustomError.intParseError

/-- Models `u32::from_str` analogously to `parseU16`. -/
def parseU32 (s : String) : Except CustomError Nat :=
  match parseDigits s.data with
  | some n => if n < 4294967296 then Except.ok n else Except.error CustomError.intParseError
  | none => Except.error CustomError.intParseError

/-- Splits a character list at the first `'.'`, returning the part before it
and, when a dot is present, the part after it. -/
def splitOnDot : List Char → List Char × Option (List Char)
  | [] => ([], none)
  | c :: cs =>
    if c = '.' then ([], some cs)
    else
      match splitOnDot cs with
      | (ip, fp) => (c :: ip, fp)

/-- Unsigned part of `parseDecimal`: integer digits with an optional
fractional part, read as an exact rational, negated when `neg` is set. -/
def parseDecimalAbs (neg : Bool) (cs : List Char) : Except CustomError ℚ :=
  match splitOnDot cs with
  | (ip, none) =>
    match parseDigits ip with
    | some n => Except.ok (if neg then -(n : ℚ) else (n : ℚ))
    | none => Except.error CustomError.decimalParseError
  | (ip, some fp) =>
    match parseDigits ip, parseDigits fp with
    | some n, some f =>
      Except.ok
        (if neg then -((n : ℚ) + (f : ℚ) / (10 : ℚ) ^ fp.length)
         else (n : ℚ) + (f : ℚ) / (10 : ℚ) ^ fp.length)
    | _, _ => Except.error CustomError.decimalParseError

/-- Models `rust_decimal::Decimal::from_str` (the external parser the source
calls) on the inputs this program meets: an optional leading minus sign,
integer digits, and an optional fractional part, read as an exact rational. -/
def parseDecimal (s : String) : Except CustomError ℚ :=
  match s.data with
  | '-' :: rest => parseDecimalAbs true rest
  | cs => parseDecimalAbs false cs

/-- Models `Transaction::from_record` (`engine.rs`, lines 145-168).  A record
is the list of a CSV row's fields; `record.get(i).unwrap()` on a missing
field is a panic. -/
def Transaction.from_record (r : List String) :
    Except Panic (Except CustomError Transaction) :=
  match r.get? 0 with
  | none => Except.error Panic.unwrapNone
  | some f0 =>
    match Action.from_str f0 with
    | Except.error e => Except.ok (Except.error e)
    | Except.ok action_type =>
      match r.get? 1 with
      | none => Except.error Panic.unwrapNone
      | some f1 =>
        match parseU16 f1 with
        | Except.error e => Except.ok (Except.error e)
        | Except.ok client_id =>
          match r.get? 2 with
          | none => Except.error Panic.unwrapNone
          | some f2 =>
            match parseU32 f2 with
            | Except.error e => Except.ok (Except.error e)
            | Except.ok transaction_id =>
              match action_type with
              | Action.deposit | Action.withdrawal =>
                (match r.get? 3 with
                 | none => Except.error Panic.unwrapNone
                 | some f3 =>
                   match parseDecimal f3 with
                   | Except.error e => Except.ok (Except.error e)
                   | Except.ok d =>
                     Except.ok (Except.ok
                       { action_type := action_type
                         client_id := client_id
                         transaction_id := transaction_id
                         decimal := some d
                         is_under_dispute := false }))
              | _ =>
                Except.ok (Except.ok
                  { action_type := action_type
                    client_id := client_id
                    transaction_id := transaction_id
                    decimal := none
                    is_under_dispute := false })

/-- Fatal-versus-recoverable classification performed by the two identical
`match err` arms inside `Engine::process` (`engine.rs`, lines 44-59 and
65-80): `true` means "return Err(err)", `false` means "log and continue". -/
def CustomError.isFatal : CustomError → Bool
  | CustomError.undefinedAction => true
  | CustomError.decimalParseError => true
  | CustomError.intParseError => true
  | CustomError.fileOpenError => true
  | _ => false

/-- Models the record loop of `Engine::process` (`engine.rs`, lines 34-84)
over the decoded CSV rows, threading the `clients` map.  NOTE the source's
line 35, `Transaction::from_record(value.unwrap()).unwrap()`: a record that
fails to parse makes the whole run panic (`Panic.unwrapErr`), it is never
returned as a `CustomError`. -/
def Engine.processLoop (clients : List (ClientId × Account)) :
    List (List String) → Except Panic (Except CustomError (List (ClientId × Account)))
  | [] => Except.ok (Except.ok clients)
  | r :: rs =>
    match Transaction.from_record r with
    | Except.error p => Except.error p
    | Except.ok (Except.error _) => Except.error Panic.unwrapErr
    | Except.ok (Except.ok t) =>
      match mlookup t.client_id clients with
      | none =>
        match Account.handle_transaction (Account.new t.client_id) t with
        | Except.error p => Except.error p
        | Except.ok (acc, Except.ok ()) =>
          Engine.processLoop ((t.client_id, acc) :: clients) rs
        | Except.ok (_, Except.error e) =>
          if e.isFatal then Except.ok (Except.error e)
          else Engine.processLoop clients rs
      | some acc =>
        match Account.handle_transaction acc t with
        | Except.error p => Except.error p
        | Except.ok (acc', Except.ok ()) =>
          Engine.processLoop (mset t.client_id acc' clients) rs
        | Except.ok (acc', Except.error e) =>
          if e.isFatal then Except.ok (Except.error e)
          else Engine.processLoop (mset t.client_id acc' clients) rs

/-- One rendered output row of the final snapshot (`engine.rs`, lines 95-105). -/
structure OutputRow where
  client : ClientId
  available : ℚ
  held : ℚ
  total : ℚ
  locked : Bool
deriving DecidableEq

/-- Models `Engine::process` (`engine.rs`, lines 29-108) end to end: run the
record loop from an empty client map and, when it finishes without a fatal
error, render one output row per entry of the final map.  The header line
carries no data and is not modelled as a row. -/
def Engine.process (records : List (List String)) :
    Except Panic (Except CustomError (List OutputRow)) :=
  match Engine.processLoop [] records with
  | Except.error p => Except.error p
  | Except.ok (Except.error e) => Except.ok (Except.error e)
  | Except.ok (Except.ok m) =>
    Except.ok (Except.ok (m.map fun p =>
      { client := p.1
        available := p.2.available
        held := p.2.held
        total := p.2.total
        locked := p.2.is_locked }))

/-- Projection of the engine loop onto a single client `c`: the state of `c`'s
account (absent or present) after the records are consumed, given that the
run completes without a fatal error or panic.  `handle_transaction` reads and
writes only the account it is called on, so the loop acts on each client's
entry independently; the branches that abort the whole run keep `st`
unchanged and are unreachable under a completed run. -/
def Engine.perClient (c : ClientId) (st : Option Account) :
    List (List String) → Option Account
  | [] => st
  | r :: rs =>
    match Transaction.from_record r with
    | Except.error _ => st
    | Except.ok (Except.error _) => st
    | Except.ok (Except.ok t) =>
      if t.client_id = c then
        match st with
        | none =>
          match Account.handle_transaction (Account.new c) t with
          | Except.error _ => st
          | Except.ok (acc, Except.ok ()) => Engine.perClient c (some acc) rs
          | Except.ok (_, Except.error e) =>
            if e.isFatal then st else Engine.perClient c none rs
        | some acc =>
          match Account.handle_transaction acc t with
          | Except.error _ => st
          | Except.ok (acc', Except.ok ()) => Engine.perClient c (some acc') rs
          | Except.ok (acc', Except.error e) =>
            if e.isFatal then st else Engine.perClient c (some acc') rs
      else Engine.perClient c st rs

/-! Sample inputs used by the closed witness theorems. -/

/-- Sample deposit of amount `1` with transaction id `1` for client `1`. -/
def depTx1 : Transaction := ⟨Action.deposit, 1, 1, some 1, false⟩

/-- Sample withdrawal of amount `1` with transaction id `2` for client `1`. -/
def wdTx2 : Transaction := ⟨Action.withdrawal, 1, 2, some 1, false⟩

/-- Sample dispute referring to transaction id `1`, for client `1`. -/
def dispTx1 : Transaction := ⟨Action.dispute, 1, 1, none, false⟩

/-- Sample chargeback referring to transaction id `1`, for client `1`. -/
def cbTx1 : Transaction := ⟨Action.chargeback, 1, 1, none, false⟩

/-- Client `1`'s account right after `depTx1` is applied to a fresh account. -/
def acct1 : Account := ⟨1, [(1, depTx1)], false, 1, 0, 1⟩

/-- `acct1` after `dispTx1` put the deposit under dispute. -/
def acct1d : Account := ⟨1, [(1, { depTx1 with is_under_dispute := true })], false, 0, 1, 1⟩

/-- A locked account for client `1`. -/
def lockedAcct : Account := ⟨1, [], true, 0, 0, 0⟩

/-- Sample deposit of the negative amount `-1`, transaction id `3`. -/
def negDepTx3 : Transaction := ⟨Action.deposit, 1, 3, some (-1), false⟩

/-- `acct1` after `depTx1` was deposited and withdrawn again via `wdTx2`. -/
def acct2w : Account := ⟨1, [(2, wdTx2), (1, depTx1)], false, 0, 0, 0⟩

/-! Helper lemmas. -/

lemma sanityCheck_eq_ok {b a' : Account} {r : Except CustomError Unit}
    (h : sanityCheck b = Except.ok (a', r)) :
    a' = b ∧ r = Except.ok () ∧ b.total = b.available + b.held := by
  unfold sanityCheck at h
  split at h
  · rename_i heq
    simp only [Except.ok.injEq, Prod.mk.injEq] at h
    exact ⟨h.1.symm, h.2.symm, heq⟩
  · exact absurd h (by simp)

lemma sanityCheck_ne_unwrapNone (b : Account) :
    sanityCheck b ≠ Except.error Panic.unwrapNone := by
  unfold sanityCheck
  split <;> simp

/-! Claim theorems. -/

/-- C1: for every account and every transaction, if `handle_transaction`
returns `Ok` then afterwards the account satisfies
`total == available + held` (the final `assert_eq!` admits no other
successful outcome). -/
theorem c1_invariant_after_ok (a : Account) (t : Transaction) (a' : Account)
    (h : a.handle_transaction t = Except.ok (a', Except.ok ())) :
    a'.total = a'.available + a'.held := by
  unfold Account.handle_transaction at h
  repeat' split at h
  all_goals try exact absurd h (by simp)
  all_goals obtain ⟨rfl, -, hb⟩ := sanityCheck_eq_ok h
  all_goals exact hb

/-- C1 witness: the invariant conclusion at a concrete successful deposit. -/
theorem c1_invariant_after_ok_witness : acct1.total = acct1.available + acct1.held :=
  c1_invariant_after_ok (Account.new 1) depTx1 acct1
    (by simp [Account.handle_transaction, Account.new, depTx1, acct1, mlookup, sanityCheck])

/-- C5: `handle_transaction` is atomic on failure: whenever it returns `Err`
the account it leaves behind is exactly the account it was given
(balances, lock flag and stored history all unchanged). -/
theorem c5_err_leaves_account_unchanged (a : Account) (t : Transaction)
    (a' : Account) (e : CustomError)
    (h : a.handle_transaction t = Except.ok (a', Except.error e)) :
    a' = a := by
  unfold Account.handle_transaction at h
  repeat' split at h
  all_goals try (obtain ⟨-, hr, -⟩ := sanityCheck_eq_ok h; exact absurd hr (by simp))
  all_goals simp at h
  all_goals exact h.1.symm

/-- C5 witness: a rejected withdrawal (insufficient balance) on a fresh
account leaves the account unchanged. -/
theorem c5_err_leaves_account_unchanged_witness : Account.new 1 = Account.new 1 :=
  c5_err_leaves_account_unchanged (Account.new 1) wdTx2 (Account.new 1)
    CustomError.accountBalanceNotEnough
    (by simp [Account.handle_transaction, Account.new, wdTx2, mlookup])

/-- C6: once an account is locked it stays locked: every call on a locked
account returns the `LockedAccount` error with the account unchanged, and no
call of `handle_transaction` ever turns `is_locked` from `true` to `false`. -/
theorem c6_locked_is_permanent (a : Account) (t : Transaction) :
    (a.is_locked = true →
      a.handle_transaction t = Except.ok (a, Except.error CustomError.lockedAccount)) ∧
    ∀ a' r, a.handle_transaction t = Except.ok (a', r) →
      a.is_locked = true → a'.is_locked = true := by
  constructor
  · intro hl
    simp [Account.handle_transaction, hl]
  · intro a' r h hl
    simp [Account.handle_transaction, hl] at h
    exact h.1 ▸ hl

/-- C6 witness: at a locked account and a concrete deposit, the call is
rejected with `LockedAccount` and the account stays locked. -/
theorem c6_locked_is_permanent_witness :
    lockedAcct.handle_transaction depTx1
      = Except.ok (lockedAcct, Except.error CustomError.lockedAccount) ∧
    lockedAcct.is_locked = true :=
  ⟨(c6_locked_is_permanent lockedAcct depTx1).1 rfl,
   (c6_locked_is_permanent lockedAcct depTx1).2 lockedAcct
     (Except.error CustomError.lockedAccount)
     ((c6_locked_is_permanent lockedAcct depTx1).1 rfl) rfl⟩

/-- C7: on an unlocked account, a chargeback of a stored deposit under
dispute succeeds, subtracts the deposit's amount from `held` and `total`,
leaves `available` unchanged, clears the dispute flag and locks the account
(the final assertion passes because the account satisfied the balance
identity before the call); a missing referenced transaction fails with
`NonExistingTransactionId`, a stored non-deposit with `UndefinedBehaviour`,
and a stored deposit not under dispute with `NotUnderDispute`, each leaving
the account unchanged. -/
theorem c7_chargeback_behaviour (a : Account) (t : Transaction)
    (hl : a.is_locked = false) (hact : t.action_type = Action.chargeback) :
    (mlookup t.transaction_id a.transactions = none →
      a.handle_transaction t = Except.ok (a, Except.error CustomError.nonExistingTransactionId)) ∧
    ∀ orig, mlookup t.transaction_id a.transactions = some orig →
      (orig.action_type ≠ Action.deposit →
        a.handle_transaction t = Except.ok (a, Except.error CustomError.undefinedBehaviour)) ∧
      (orig.action_type = Action.deposit → orig.is_under_dispute = false →
        a.handle_transaction t = Except.ok (a, Except.error CustomError.notUnderDispute)) ∧
      ∀ d, orig.action_type = Action.deposit → orig.is_under_dispute = true →
        orig.decimal = some d → a.total = a.available + a.held →
        a.handle_transaction t = Except.ok
          ({ a with held := a.held - d
                    total := a.total - d
                    is_locked := true
                    transactions :=
                      mset t.transaction_id { orig with is_under_dispute := false }
                        a.transactions },
           Except.ok ()) := by
  refine ⟨fun hnone => ?_,
    fun orig hsome => ⟨fun hne => ?_, fun hdep hnd => ?_, fun d hdep hud hdec hinv => ?_⟩⟩
  · simp [Account.handle_transaction, hl, hact, hnone]
  · cases ho : orig.action_type
    case deposit => exact absurd ho hne
    all_goals simp [Account.handle_transaction, hl, hact, hsome, ho]
  · simp [Account.handle_transaction, hl, hact, hsome, hdep, hnd]
  · simp [Account.handle_transaction, hl, hact, hsome, hdep, hud, hdec, sanityCheck]
    linarith

/-- C7 witness: charging back the disputed deposit of `acct1d` empties the
held and total balances, restores the stored flag and locks the account. -/
theorem c7_chargeback_behaviour_witness :
    acct1d.handle_transaction cbTx1
      = Except.ok ((⟨1, [(1, depTx1)], true, 0, 0, 0⟩ : Account), Except.ok ()) := by
  have h := ((c7_chargeback_behaviour acct1d cbTx1 rfl rfl).2
    { depTx1 with is_under_dispute := true }
    (by simp [acct1d, cbTx1, mlookup])).2.2 1 rfl rfl rfl (by norm_num [acct1d])
  simpa [acct1d, cbTx1, depTx1, mset] using h

/-- Inversion of a successful deposit: the new balances in terms of the old. -/
lemma deposit_ok_inv {a : Account} {t : Transaction} {a' : Account} {d : ℚ}
    (hact : t.action_type = Action.deposit) (hd : t.decimal = some d)
    (h : a.handle_transaction t = Except.ok (a', Except.ok ())) :
    a'.available = a.available + d ∧ a'.held = a.held ∧ a'.total = a.total + d := by
  unfold Account.handle_transaction at h
  rw [hact] at h
  repeat' split at h
  all_goals try exact absurd h (by simp)
  all_goals obtain ⟨rfl, -, -⟩ := sanityCheck_eq_ok h
  all_goals simp_all

/-- Inversion of a successful withdrawal: the new balances in terms of the
old. -/
lemma withdrawal_ok_inv {a : Account} {t : Transaction} {a' : Account} {d : ℚ}
    (hact : t.action_type = Action.withdrawal) (hd : t.decimal = some d)
    (h : a.handle_transaction t = Except.ok (a', Except.ok ())) :
    a'.available = a.available - d ∧ a'.held = a.held ∧ a'.total = a.total - d := by
  unfold Account.handle_transaction at h
  rw [hact] at h
  repeat' split at h
  all_goals try exact absurd h (by simp)
  all_goals obtain ⟨rfl, -, -⟩ := sanityCheck_eq_ok h
  all_goals simp_all

/-- C8: a successful deposit of amount `d` followed by a successful
withdrawal of the same amount `d` restores `available`, `held` and `total`
to their values before the deposit. -/
theorem c8_deposit_withdrawal_roundtrip (a a1 a2 : Account) (t1 t2 : Transaction) (d : ℚ)
    (ht1 : t1.action_type = Action.deposit) (hd1 : t1.decimal = some d)
    (ht2 : t2.action_type = Action.withdrawal) (hd2 : t2.decimal = some d)
    (h1 : a.handle_transaction t1 = Except.ok (a1, Except.ok ()))
    (h2 : a1.handle_transaction t2 = Except.ok (a2, Except.ok ())) :
    a2.available = a.available ∧ a2.held = a.held ∧ a2.total = a.total := by
  obtain ⟨hav1, hh1, hto1⟩ := deposit_ok_inv ht1 hd1 h1
  obtain ⟨hav2, hh2, hto2⟩ := withdrawal_ok_inv ht2 hd2 h2
  refine ⟨?_, ?_, ?_⟩
  · rw [hav2, hav1]; ring
  · rw [hh2, hh1]
  · rw [hto2, hto1]; ring

/-- C8 witness: deposit `1` then withdraw `1` on a fresh account returns all
three balances to `0`. -/
theorem c8_deposit_withdrawal_roundtrip_witness :
    acct2w.available = (Account.new 1).available ∧
    acct2w.held = (Account.new 1).held ∧
    acct2w.total = (Account.new 1).total :=
  c8_deposit_withdrawal_roundtrip (Account.new 1) acct1 acct2w depTx1 wdTx2 1
    rfl rfl rfl rfl
    (by simp [Account.handle_transaction, Account.new, depTx1, acct1, mlookup, sanityCheck])
    (by simp [Account.handle_transaction, acct1, depTx1, wdTx2, acct2w, mlookup, sanityCheck])

/-- C9: `handle_transaction` performs no sign check on amounts: on an
unlocked account with a fresh transaction id, a deposit of a negative amount
succeeds and strictly decreases `available` and `total`, and a withdrawal of
any amount `d ≤ available` succeeds, a negative one strictly increasing
`available` and `total`. -/
theorem c9_no_sign_check (a : Account) (t : Transaction) (d : ℚ)
    (hl : a.is_locked = false)
    (hfresh : mlookup t.transaction_id a.transactions = none)
    (hd : t.decimal = some d) (hinv : a.total = a.available + a.held) :
    (t.action_type = Action.deposit → d < 0 →
      a.handle_transaction t = Except.ok
        ({ a with available := a.available + d
                  total := a.total + d
                  transactions := (t.transaction_id, t) :: a.transactions },
         Except.ok ()) ∧
      a.available + d < a.available ∧ a.total + d < a.total) ∧
    (t.action_type = Action.withdrawal → d ≤ a.available →
      a.handle_transaction t = Except.ok
        ({ a with available := a.available - d
                  total := a.total - d
                  transactions := (t.transaction_id, t) :: a.transactions },
         Except.ok ()) ∧
      (d < 0 → a.available < a.available - d ∧ a.total < a.total - d)) := by
  constructor
  · intro hact hneg
    refine ⟨?_, by linarith, by linarith⟩
    simp [Account.handle_transaction, hl, hact, hfresh, hd, sanityCheck]
    linarith
  · intro hact hle
    refine ⟨?_, fun hneg => ⟨by linarith, by linarith⟩⟩
    simp [Account.handle_transaction, hl, hact, hfresh, hd, sanityCheck, not_lt.mpr hle]
    linarith

/-- C9 witness: depositing `-1` into a fresh account succeeds and takes
`available` and `total` below their previous values. -/
theorem c9_no_sign_check_witness :
    (Account.new 1).handle_transaction negDepTx3 = Except.ok
      ({ Account.new 1 with
          available := (Account.new 1).available + (-1)
          total := (Account.new 1).total + (-1)
          transactions := (negDepTx3.transaction_id, negDepTx3) :: (Account.new 1).transactions },
       Except.ok ()) ∧
    (Account.new 1).available + (-1) < (Account.new 1).available ∧
    (Account.new 1).total + (-1) < (Account.new 1).total :=
  (c9_no_sign_check (Account.new 1) negDepTx3 (-1) rfl rfl rfl
    (by norm_num [Account.new])).1 rfl (by norm_num)

/-- C10: `Transaction::from_record` yields `decimal = Some _` exactly for
deposits and withdrawals, and under that precondition — on the incoming
transaction and on every transaction stored in the account's history — no
unwrap of the optional amount inside `handle_transaction` can panic. -/
theorem c10_amount_unwraps_never_panic :
    (∀ (r : List String) (t : Transaction),
      Transaction.from_record r = Except.ok (Except.ok t) →
      (t.decimal.isSome ↔ (t.action_type = Action.deposit ∨ t.action_type = Action.withdrawal))) ∧
    ∀ (a : Account) (t : Transaction),
      (∀ k tx, mlookup k a.transactions = some tx →
        (tx.action_type = Action.deposit ∨ tx.action_type = Action.withdrawal) →
        tx.decimal.isSome) →
      ((t.action_type = Action.deposit ∨ t.action_type = Action.withdrawal) →
        t.decimal.isSome) →
      a.handle_transaction t ≠ Except.error Panic.unwrapNone := by
  constructor
  · intro r t h
    unfold Transaction.from_record at h
    repeat' split at h
    all_goals simp at h
    all_goals subst h
    all_goals simp_all
  · intro a t hstored hin h
    unfold Account.handle_transaction at h
    repeat' split at h
    all_goals try exact sanityCheck_ne_unwrapNone _ h
    all_goals try simp at h
    all_goals try simp_all
    all_goals exact absurd (hstored _ _ (by assumption) (Or.inl (by assumption))) (by simp_all)

/-- C10 witness: the `from_record` guarantee at a concrete parsed deposit
record, and absence of an amount-unwrap panic at a concrete call. -/
theorem c10_amount_unwraps_never_panic_witness :
    (depTx1.decimal.isSome ↔
      (depTx1.action_type = Action.deposit ∨ depTx1.action_type = Action.withdrawal)) ∧
    (Account.new 1).handle_transaction depTx1 ≠ Except.error Panic.unwrapNone :=
  ⟨c10_amount_unwraps_never_panic.1 ["deposit", "1", "1", "1"] depTx1
    (by simp [Transaction.from_record, Action.from_str, parseU16, parseU32, parseDecimal,
      parseDecimalAbs, splitOnDot, parseDigits, parseDigitsAux, digitVal, depTx1]),
   c10_amount_unwraps_never_panic.2 (Account.new 1) depTx1
    (fun k tx hk => by simp [Account.new, mlookup] at hk)
    (fun _ => by simp [depTx1])⟩

/-- C2 (bug evidence): the Dispute branch never consults the stored
deposit's `is_under_dispute` flag, so a second dispute of the same deposit
succeeds and moves the deposit's amount from `available` to `held` a second
time: starting from a fresh account, depositing `1` and disputing
transaction `1` twice ends with `available = -1` and `held = 2`, i.e.
`available` was decreased by the deposit's held portion once per dispute. -/
theorem c2_double_dispute_moves_amount_twice :
    (Account.new 1).handle_transaction depTx1 = Except.ok (acct1, Except.ok ()) ∧
    acct1.handle_transaction dispTx1 = Except.ok (acct1d, Except.ok ()) ∧
    acct1d.handle_transaction dispTx1 = Except.ok
      ((⟨1, [(1, { depTx1 with is_under_dispute := true })], false, -1, 2, 1⟩ : Account),
       Except.ok ()) ∧
    acct1d.available = acct1.available - 1 ∧ (-1 : ℚ) = acct1d.available - 1 := by
  refine ⟨?_, ?_, ?_, by norm_num [acct1d, acct1], by norm_num [acct1d]⟩
  · simp [Account.handle_transaction, Account.new, depTx1, acct1, mlookup, sanityCheck]
  · simp [Account.handle_transaction, acct1, depTx1, dispTx1, acct1d, mlookup, mset, sanityCheck]
  · simp [Account.handle_transaction, acct1d, depTx1, dispTx1, mlookup, mset, sanityCheck]
    norm_num

/-- C4 (bug evidence): a record with the malformed action keyword `"foo"`
makes `Engine::process` panic (the `.unwrap()` on `Transaction::from_record`'s
`Err(UndefinedAction)`), so the run aborts with a panic instead of returning
the fatal error, and no output rows are produced. -/
theorem c4_malformed_action_panics_not_error :
    Engine.process [["foo", "1", "1", "1.0"]] = Except.error Panic.unwrapErr := by
  simp [Engine.process, Engine.processLoop, Transaction.from_record, Action.from_str,
    parseU16, parseU32, parseDecimal, parseDecimalAbs, splitOnDot, parseDigits,
    parseDigitsAux, digitVal]

/-- C3 counterexample: client `5` appears in the input (a withdrawal that
fails recoverably with `AccountBalanceNotEnough` on the not-yet-inserted
fresh account), the stream completes without a fatal error, and yet the
snapshot is empty — no row is emitted for client `5`, refuting the claim
that every client id that appeared gets a row. -/
theorem c3_counterexample_failed_client_has_no_row :
    Engine.process [["withdrawal", "5", "1", "1.0"]] = Except.ok (Except.ok []) := by
  simp [Engine.process, Engine.processLoop, Transaction.from_record, Action.from_str,
    parseU16, parseU32, parseDecimal, parseDecimalAbs, splitOnDot, parseDigits, parseDigitsAux,
    digitVal, Account.handle_transaction, Account.new, mlookup, sanityCheck, CustomError.isFatal]

/-- Lookup after an `mset`: the set key reads back as the new value exactly
when it was present, other keys are untouched. -/
lemma mlookup_mset (c k : Nat) (v : α) (m : List (Nat × α)) :
    mlookup c (mset k v m)
      = if c = k then Option.map (fun _ => v) (mlookup k m) else mlookup c m := by
  induction m with
  | nil => simp [mset, mlookup]
  | cons p m ih =>
    obtain ⟨a, b⟩ := p
    by_cases h1 : a = k
    · subst h1
      by_cases h2 : c = a
      · subst h2; simp [mset, mlookup, ih]
      · simp [mset, mlookup, h2, ih]
    · have h1' : k ≠ a := fun hh => h1 hh.symm
      by_cases h2 : c = a
      · subst h2
        simp [mset, mlookup, h1, h1']
      · simp [mset, mlookup, h1, h1', h2, ih]

/-- A key looks up to `none` exactly when it is not among the stored keys. -/
lemma mlookup_eq_none_iff (c : Nat) (m : List (Nat × α)) :
    mlookup c m = none ↔ c ∉ m.map Prod.fst := by
  induction m with
  | nil => simp [mlookup]
  | cons p m ih =>
    by_cases h : c = p.1
    · simp [mlookup, h]
    · simp [mlookup, h, ih]

/-- An `mset` never changes the list of stored keys. -/
lemma map_fst_mset (k : Nat) (v : α) (m : List (Nat × α)) :
    (mset k v m).map Prod.fst = m.map Prod.fst := by
  induction m with
  | nil => simp [mset]
  | cons p m ih =>
    by_cases h : p.1 = k
    · simp [mset, h, ih]
    · simp [mset, h, ih]

/-- Simulation of the engine loop by its per-client projection: when the loop
finishes without a fatal error or panic, each client's final map entry is what
`Engine.perClient` computes from that client's initial entry. -/
lemma processLoop_lookup (rs : List (List String)) :
    ∀ (clients m' : List (ClientId × Account)),
      Engine.processLoop clients rs = Except.ok (Except.ok m') →
      ∀ c, mlookup c m' = Engine.perClient c (mlookup c clients) rs := by
  induction rs with
  | nil =>
    intro clients m' h c
    simp [Engine.processLoop] at h
    subst h
    rfl
  | cons r rs ih =>
    intro clients m' h c
    unfold Engine.processLoop at h
    cases hfr : Transaction.from_record r with
    | error p => simp only [hfr] at h; exact absurd h (by simp)
    | ok res =>
      cases res with
      | error e => simp only [hfr] at h; exact absurd h (by simp)
      | ok t =>
        simp only [hfr] at h
        by_cases hc : t.client_id = c
        · subst hc
          cases hml : mlookup t.client_id clients with
          | none =>
            simp only [hml] at h
            cases hht : (Account.new t.client_id).handle_transaction t with
            | error p => simp only [hht] at h; exact absurd h (by simp)
            | ok pr =>
              obtain ⟨acc, res2⟩ := pr
              cases res2 with
              | ok u =>
                cases u
                simp only [hht] at h
                have hih := ih _ _ h t.client_id
                simp only [mlookup, if_pos rfl] at hih
                rw [hih]
                simp [Engine.perClient, hfr, hml, hht]
              | error e =>
                simp only [hht] at h
                cases hf : e.isFatal with
                | true => simp [hf] at h
                | false =>
                  simp only [hf, Bool.false_eq_true, if_false] at h
                  have hih := ih _ _ h t.client_id
                  simp only [hml] at hih
                  rw [hih]
                  simp [Engine.perClient, hfr, hml, hht, hf]
          | some acc =>
            simp only [hml] at h
            cases hht : acc.handle_transaction t with
            | error p => simp only [hht] at h; exact absurd h (by simp)
            | ok pr =>
              obtain ⟨acc', res2⟩ := pr
              cases res2 with
              | ok u =>
                cases u
                simp only [hht] at h
                have hih := ih _ _ h t.client_id
                rw [mlookup_mset] at hih
                simp only [if_pos rfl, hml, Option.map_some] at hih
                rw [hih]
                simp [Engine.perClient, hfr, hml, hht]
              | error e =>
                simp only [hht] at h
                cases hf : e.isFatal with
                | true => simp [hf] at h
                | false =>
                  simp only [hf, Bool.false_eq_true, if_false] at h
                  have hih := ih _ _ h t.client_id
                  rw [mlookup_mset] at hih
                  simp only [if_pos rfl, hml, Option.map_some] at hih
                  rw [hih]
                  simp [Engine.perClient, hfr, hml, hht, hf]
        · have hc' : ¬(c = t.client_id) := fun hh => hc hh.symm
          cases hml : mlookup t.client_id clients with
          | none =>
            simp only [hml] at h
            cases hht : (Account.new t.client_id).handle_transaction t with
            | error p => simp only [hht] at h; exact absurd h (by simp)
            | ok pr =>
              obtain ⟨acc, res2⟩ := pr
              cases res2 with
              | ok u =>
                cases u
                simp only [hht] at h
                have hih := ih _ _ h c
                simp only [mlookup, if_neg hc'] at hih
                rw [hih]
                simp [Engine.perClient, hfr, hc]
              | error e =>
                simp only [hht] at h
                cases hf : e.isFatal with
                | true => simp [hf] at h
                | false =>
                  simp only [hf, Bool.false_eq_true, if_false] at h
                  have hih := ih _ _ h c
                  rw [hih]
                  simp [Engine.perClient, hfr, hc]
          | some acc =>
            simp only [hml] at h
            cases hht : acc.handle_transaction t with
            | error p => simp only [hht] at h; exact absurd h (by simp)
            | ok pr =>
              obtain ⟨acc', res2⟩ := pr
              cases res2 with
              | ok u =>
                cases u
                simp only [hht] at h
                have hih := ih _ _ h c
                rw [mlookup_mset] at hih
                simp only [if_neg hc'] at hih
                rw [hih]
                simp [Engine.perClient, hfr, hc]
              | error e =>
                simp only [hht] at h
                cases hf : e.isFatal with
                | true => simp [hf] at h
                | false =>
                  simp only [hf, Bool.false_eq_true, if_false] at h
                  have hih := ih _ _ h c
                  rw [mlookup_mset] at hih
                  simp only [if_neg hc'] at hih
                  rw [hih]
                  simp [Engine.perClient, hfr, hc]

/-- The engine loop preserves distinctness of the client keys: a new key is
only consed on when its lookup was `none`, and `mset` keeps keys unchanged. -/
lemma processLoop_keys_nodup (rs : List (List String)) :
    ∀ (clients m' : List (ClientId × Account)),
      (clients.map Prod.fst).Nodup →
      Engine.processLoop clients rs = Except.ok (Except.ok m') →
      (m'.map Prod.fst).Nodup := by
  induction rs with
  | nil =>
    intro clients m' hnd h
    simp [Engine.processLoop] at h
    subst h
    exact hnd
  | cons r rs ih =>
    intro clients m' hnd h
    unfold Engine.processLoop at h
    cases hfr : Transaction.from_record r with
    | error p => simp [hfr] at h
    | ok res =>
      cases res with
      | error e => simp [hfr] at h
      | ok t =>
        simp only [hfr] at h
        cases hml : mlookup t.client_id clients with
        | none =>
          simp only [hml] at h
          cases hht : (Account.new t.client_id).handle_transaction t with
          | error p => simp [hht] at h
          | ok pr =>
            obtain ⟨acc, res2⟩ := pr
            cases res2 with
            | ok u =>
              cases u
              simp only [hht] at h
              refine ih _ _ ?_ h
              simp only [List.map_cons, List.nodup_cons]
              exact ⟨(mlookup_eq_none_iff _ _).mp hml, hnd⟩
            | error e =>
              simp only [hht] at h
              cases hf : e.isFatal with
              | true => simp [hf] at h
              | false =>
                simp only [hf, Bool.false_eq_true, if_false] at h
                exact ih _ _ hnd h
        | some acc =>
          simp only [hml] at h
          cases hht : acc.handle_transaction t with
          | error p => simp [hht] at h
          | ok pr =>
            obtain ⟨acc', res2⟩ := pr
            cases res2 with
            | ok u =>
              cases u
              simp only [hht] at h
              refine ih _ _ ?_ h
              rw [map_fst_mset]
              exact hnd
            | error e =>
              simp only [hht] at h
              cases hf : e.isFatal with
              | true => simp [hf] at h
              | false =>
                simp only [hf, Bool.false_eq_true, if_false] at h
                refine ih _ _ ?_ h
                rw [map_fst_mset]
                exact hnd

/-- C3 as amended: when `Engine::process` consumes the whole stream without a
fatal error or panic, the snapshot contains exactly one row for every client
id with at least one successfully applied transaction (the per-client
projection ends in an inserted account), and no row for a client all of whose
transactions failed recoverably. -/
theorem c3_one_row_per_successful_client (records : List (List String))
    (rows : List OutputRow)
    (h : Engine.process records = Except.ok (Except.ok rows)) :
    (rows.map OutputRow.client).Nodup ∧
    ∀ c, c ∈ rows.map OutputRow.client ↔
      (Engine.perClient c none records).isSome = true := by
  unfold Engine.process at h
  cases hm : Engine.processLoop [] records with
  | error p => simp [hm] at h
  | ok res =>
    cases res with
    | error e => simp [hm] at h
    | ok m =>
      simp only [hm] at h
      simp only [Except.ok.injEq] at h
      subst h
      have hkeys :
          (m.map fun p => OutputRow.mk p.1 p.2.available p.2.held p.2.total p.2.is_locked).map
            OutputRow.client = m.map Prod.fst := by
        simp [List.map_map]
      rw [hkeys]
      constructor
      · exact processLoop_keys_nodup records [] m (by simp) hm
      · intro c
        have hl := processLoop_lookup records [] m hm c
        have hnil : mlookup c ([] : List (ClientId × Account)) = none := rfl
        rw [hnil] at hl
        rw [← hl, ← Option.ne_none_iff_isSome]
        exact ⟨fun hmem hnone => ((mlookup_eq_none_iff c m).mp hnone) hmem,
          fun hne => by
            by_contra hnm
            exact hne ((mlookup_eq_none_iff c m).mpr hnm)⟩

/-- C3 amended-claim witness: one concrete successful deposit yields a
one-row snapshot whose single client id is `1`, and client `1`'s per-client
projection indeed ends in an inserted account. -/
theorem c3_one_row_per_successful_client_witness :
    ((([⟨1, 1, 0, 1, false⟩] : List OutputRow).map OutputRow.client).Nodup) ∧
    ((1 : ClientId) ∈ ([⟨1, 1, 0, 1, false⟩] : List OutputRow).map OutputRow.client ↔
      (Engine.perClient 1 none [["deposit", "1", "1", "1.0"]]).isSome = true) :=
  ⟨(c3_one_row_per_successful_client [["deposit", "1", "1", "1.0"]] [⟨1, 1, 0, 1, false⟩]
      (by simp [Engine.process, Engine.processLoop, Transaction.from_record, Action.from_str,
        parseU16, parseU32, parseDecimal, parseDecimalAbs, splitOnDot, parseDigits,
        parseDigitsAux, digitVal, Account.handle_transaction, Account.new, mlookup,
        sanityCheck, CustomError.isFatal])).1,
   (c3_one_row_per_successful_client [["deposit", "1", "1", "1.0"]] [⟨1, 1, 0, 1, false⟩]
      (by simp [Engine.process, Engine.processLoop, Transaction.from_record, Action.from_str,
        parseU16, parseU32, parseDecimal, parseDecimalAbs, splitOnDot, parseDigits,
        parseDigitsAux, digitVal, Account.handle_transaction, Account.new, mlookup,
        sanityCheck, CustomError.isFatal])).2 1⟩

end TransactionHandler
